import Mathlib

/-!
Verification of the wfl-game physics / spatial-partitioning core.

The JavaScript sources are shallowly embedded here.  Numbers are modelled as
exact rationals (`ℚ`); where the source hits genuine IEEE-754 special values
(`NaN`, `Infinity`) on a path under verification, a dedicated scalar type
`JsNum` with those values is used instead.  `Math.sqrt` is modelled by
`ratSqrt`, which is exact on rationals that are squares of rationals and
returns the junk value 0 elsewhere; every theorem whose truth depends on a
square root carries an explicit exactness hypothesis for the value at which
the square root is taken.  Bitwise coercions (`x | 0`, `x >> 1`) follow the
ECMAScript ToInt32 definition.
-/

set_option maxRecDepth 8000

namespace WflGame

/-- Division on `ℚ`, written so that it evaluates by kernel reduction
(Mathlib's field `/` on `ℚ` does not); `jsDiv_eq` proves it equal to `/`. -/
def jsDiv (a b : ℚ) : ℚ :=
  Rat.divInt (a.num * (b.den : ℤ)) ((a.den : ℤ) * b.num)

theorem jsDiv_eq (a b : ℚ) : jsDiv a b = a / b := by
  unfold jsDiv
  rcases eq_or_ne b 0 with hb | hb
  · subst hb
    simp
  · have hbn : (b.num : ℚ) ≠ 0 := by
      exact_mod_cast Rat.num_ne_zero.mpr hb
    have hbd : ((b.den : ℚ)) ≠ 0 := by
      exact_mod_cast b.den_nz
    have had : ((a.den : ℚ)) ≠ 0 := by
      exact_mod_cast a.den_nz
    have hA := Rat.num_div_den a
    have hB := Rat.num_div_den b
    rw [div_eq_iff had] at hA
    rw [div_eq_iff hbd] at hB
    rw [Rat.divInt_eq_div]
    push_cast
    rw [div_eq_div_iff (mul_ne_zero had hbn) hb, hA, hB]
    ring

/-- Truncation toward zero, as in ECMAScript ToInt32's first step. -/
def jsTrunc (q : ℚ) : ℤ :=
  if q < 0 then ⌈q⌉ else ⌊q⌋

/-- ECMAScript ToInt32: truncate toward zero, then wrap into [-2^31, 2^31). -/
def toInt32 (q : ℚ) : ℤ :=
  (jsTrunc q + 2 ^ 31) % 2 ^ 32 - 2 ^ 31

/-- JavaScript `n >> 1` on an int32 value: arithmetic shift, i.e. floor
division by 2 (exact for values already in int32 range). -/
def shr1 (z : ℤ) : ℤ :=
  Int.fdiv z 2

/-- JavaScript `q >> 1` for an arbitrary number `q`. -/
def shr1q (q : ℚ) : ℤ :=
  shr1 (toInt32 q)

/-- One step of bitwise floor-sqrt construction: try adding bit `k`. -/
def isqrtStep (n r k : ℕ) : ℕ :=
  let c := r + 2 ^ k
  if c * c ≤ n then c else r

/-- Bitwise floor square root (exact for `n < 2 ^ 66`), structurally
recursive so that it reduces in the kernel. -/
def isqrtBits (n : ℕ) : ℕ → ℕ → ℕ
  | r, 0 => isqrtStep n r 0
  | r, k + 1 => isqrtBits n (isqrtStep n r (k + 1)) k

/-- Exact square root on `ℕ` when the argument is a perfect square. -/
def natSqrtExact (n : ℕ) : Option ℕ :=
  let r := isqrtBits n 0 32
  if r * r = n then some r else none

/-- `Math.sqrt` model: exact nonnegative square root when the argument is the
square of a rational, junk value 0 otherwise (theorems that depend on the
result carry an exactness hypothesis `ratSqrt s * ratSqrt s = s`). -/
def ratSqrt (q : ℚ) : ℚ :=
  if q < 0 then 0
  else
    match natSqrtExact q.num.toNat, natSqrtExact q.den with
    | some a, some b => mkRat (a : ℤ) b
    | _, _ => 0

theorem ratSqrt_nonneg (q : ℚ) : 0 ≤ ratSqrt q := by
  unfold ratSqrt
  split
  · exact le_refl 0
  · split
    · rw [Rat.mkRat_eq_div]
      positivity
    · exact le_refl 0

/-- 2-D vector over exact rationals (src/wfl-game/src/geom Vec2). -/
structure Vec2 where
  x : ℚ
  y : ℚ
deriving DecidableEq, Repr

namespace Vec2

def add (v w : Vec2) : Vec2 := ⟨v.x + w.x, v.y + w.y⟩

def sub (v w : Vec2) : Vec2 := ⟨v.x - w.x, v.y - w.y⟩

def smul (v : Vec2) (c : ℚ) : Vec2 := ⟨v.x * c, v.y * c⟩

def dot (v w : Vec2) : ℚ := v.x * w.x + v.y * w.y

def magSq (v : Vec2) : ℚ := v.x * v.x + v.y * v.y

/-- `getMagnitude()`: `Math.sqrt(getMagnitudeSquared())`. -/
def mag (v : Vec2) : ℚ := ratSqrt (magSq v)

/-- `normalize()`: divide both components by the magnitude. -/
def normalize (v : Vec2) : Vec2 := ⟨jsDiv v.x (mag v), jsDiv v.y (mag v)⟩

/-- `setMagnitude(value)`: divide by the current magnitude, multiply by the
target value. -/
def setMagnitude (v : Vec2) (value : ℚ) : Vec2 :=
  ⟨jsDiv v.x (mag v) * value, jsDiv v.y (mag v) * value⟩

/-- `limit(maxMagnitude)`: rescale to `maxMagnitude` only when the squared
magnitude exceeds `maxMagnitude * maxMagnitude`. -/
def limit (v : Vec2) (maxMagnitude : ℚ) : Vec2 :=
  if magSq v > maxMagnitude * maxMagnitude then setMagnitude v maxMagnitude
  else v

/-- `getOrthogonal()`. -/
def getOrthogonal (v : Vec2) : Vec2 := ⟨v.y, -v.x⟩

end Vec2

/-!
## Game.update dt smoothing (src/unnamed/part_004)

```js
if (dt > 1) {
  this._excessDt += dt - 1;
  dt = 1;
} else if (this._excessDt > 0) {
  var newDt = Math.min(this._excessDt + dt, 1);
  this._excessDt -= newDt - dt;
  dt = newDt;
}
...
this._scene.update(dt);
```
-/

/-- One frame of the dt-smoothing logic in `Game.update`: given the banked
`_excessDt` and the incoming frame `dt`, returns the dt actually passed to
`scene.update` and the new `_excessDt`. -/
def gameUpdateDt (excessDt dt : ℚ) : ℚ × ℚ :=
  if dt > 1 then (1, excessDt + (dt - 1))
  else if excessDt > 0 then
    let newDt := min (excessDt + dt) 1
    (newDt, excessDt - (newDt - dt))
  else (dt, excessDt)

/-- Running `Game.update` over a whole sequence of frame dts: returns the
list of dts passed to `scene.update`, in order, plus the final excess. -/
def gameUpdateRun (excessDt : ℚ) : List ℚ → List ℚ × ℚ
  | [] => ([], excessDt)
  | dt :: rest =>
      let step := gameUpdateDt excessDt dt
      let tail := gameUpdateRun step.2 rest
      (step.1 :: tail.1, tail.2)

/-!
## Broad phase (PhysicsObject.checkBroadPhaseCollision)

Works on the per-frame calculation cache: position and rotated-AABB extents.
-/

/-- The slice of a PhysicsObject's `calculationCache` used by the spatial
queries: world position, unrotated size, and rotated AABB extents. -/
structure CalcCache where
  x : ℚ
  y : ℚ
  width : ℚ
  height : ℚ
  aabbWidth : ℚ
  aabbHeight : ℚ
deriving DecidableEq, Repr

/-- `checkBroadPhaseCollision(physObj)` of src/wfl-game/src/core/entities/
PhysicsObject.js: non-strict AABB interval comparisons on both axes. -/
def checkBroadPhaseCollision (cache otherCache : CalcCache) : Bool :=
  let thisHalfW := cache.aabbWidth * (mkRat 1 2)
  let thisHalfH := cache.aabbHeight * (mkRat 1 2)
  let thisX := cache.x
  let thisY := cache.y
  let thatHalfW := otherCache.aabbWidth * (mkRat 1 2)
  let thatHalfH := otherCache.aabbHeight * (mkRat 1 2)
  let thatX := otherCache.x
  let thatY := otherCache.y
  decide (thisX - thisHalfW ≤ thatX + thatHalfW) &&
  decide (thisX + thisHalfW ≥ thatX - thatHalfW) &&
  decide (thisY - thisHalfH ≤ thatY + thatHalfH) &&
  decide (thisY + thisHalfH ≥ thatY - thatHalfH)

/-!
## Scene._handleCollisions iteration loop (src/wfl-game/src/display/Scene.js)

```js
var needBroadPhase = gameObjects.filter((obj) => !obj.fixed && obj.solid);
for (var k = 0; k < this.collisionIterations; k++) {
  this._resetCollisionData(needBroadPhase);
  needNarrowPhase = this._cacheData(needBroadPhase);
  this._findAllCollisions(needNarrowPhase);
  if (this._collisionObjects.length === 0) { break; }
  needBroadPhase = this._collisionObjects;
}
```

One loop body (reset, cache, find-all; all of which mutate scene state and
produce the pass's `_collisionObjects`) is abstracted as a state transformer
`pass`; the loop-control structure is embedded exactly.
-/

def MAX_COLLISION_MULTI_SAMPLE_COUNT : ℤ := 5

def DEFAULT_MAX_COLLISION_ITERATIONS : Nat := 8

/-- The `for (k …) { …; if empty break; needBroadPhase = collisions }` loop of
`_handleCollisions`.  Returns the final scene state together with the trace of
each executed pass's `_collisionObjects` list. -/
def handleCollisionsLoop {σ α : Type} (pass : σ → List α → σ × List α) :
    Nat → σ → List α → σ × List (List α)
  | 0, s, _ => (s, [])
  | k + 1, s, objs =>
      let r := pass s objs
      if r.2.isEmpty then (r.1, [r.2])
      else
        let rest := handleCollisionsLoop pass k r.1 r.2
        (rest.1, r.2 :: rest.2)

/-- `_handleCollisions(gameObjects)`: filter to non-fixed solid objects, then
run up to `collisionIterations` passes. -/
def handleCollisions {σ α : Type} (pass : σ → List α → σ × List α)
    (collisionIterations : Nat) (s : σ) (gameObjects : List α)
    (fixedFlag solidFlag : α → Bool) : σ × List (List α) :=
  handleCollisionsLoop pass collisionIterations s
    (gameObjects.filter (fun o => !fixedFlag o && solidFlag o))

/-!
## Quadtree (src/wfl-game/src/datastructure/Quadtree.js, first revision:
MAX_OBJECTS 10, MAX_LEVELS 6, no retrieval cache)

The JS `nodes` array is either four `undefined`s or four subtrees, giving two
constructors.  `getIndex` reads only the node's bounds and the query object's
calculation cache, so it is a pure function here.  Bounds arithmetic in
`split` uses the exact ECMAScript `>> 1` / `| 0` semantics via `toInt32`.
-/

def MAX_OBJECTS : Nat := 10

def MAX_LEVELS : Nat := 6

/-- A quadtree node's `bounds` rectangle (JS numbers). -/
structure QBounds where
  x : ℚ
  y : ℚ
  width : ℚ
  height : ℚ
deriving DecidableEq, Repr

/-- The data of one physics object as the quadtree sees it: an identity plus
its calculation cache (position and rotated-AABB extents). -/
structure QBody where
  id : Nat
  cache : CalcCache
deriving DecidableEq, Repr

inductive Quadtree where
  | leaf (level : Nat) (bounds : QBounds) (objects : List QBody)
  | node (level : Nat) (bounds : QBounds) (objects : List QBody)
      (c0 c1 c2 c3 : Quadtree)
deriving DecidableEq, Repr

/-- `getIndex(physObj)`: which child quadrant fully contains the object's
AABB.  0-3 = a single quadrant, 4/5 = spans left/right halves, 6/7 = spans
top/bottom halves, -1 = spans the center. -/
def getIndex (bounds : QBounds) (cache : CalcCache) : ℤ :=
  let verticalMidpoint : ℚ := bounds.x + (shr1q bounds.width : ℚ)
  let horizontalMidpoint : ℚ := bounds.y + (shr1q bounds.height : ℚ)
  let w := cache.aabbWidth
  let h := cache.aabbHeight
  let x := cache.x
  let y := cache.y
  let topQuadrant : Prop := y + (shr1q h : ℚ) < horizontalMidpoint
  let bottomQuadrant : Prop := y - (shr1q h : ℚ) > horizontalMidpoint
  if x + (shr1q w : ℚ) < verticalMidpoint then
    if y + (shr1q h : ℚ) < horizontalMidpoint then 1
    else if y - (shr1q h : ℚ) > horizontalMidpoint then 2
    else 4
  else if x - (shr1q w : ℚ) > verticalMidpoint then
    if y + (shr1q h : ℚ) < horizontalMidpoint then 0
    else if y - (shr1q h : ℚ) > horizontalMidpoint then 3
    else 5
  else
    if topQuadrant ∧ ¬bottomQuadrant then 6
    else if bottomQuadrant ∧ ¬topQuadrant then 7
    else -1

/-- `index > -1 && index < 4` (the "fits in a single child" test). -/
def smallIndex (i : ℤ) : Bool :=
  decide (i > -1) && decide (i < 4)

/-- `split()`: create the four equal children (ECMAScript `>> 1` and `| 0`
arithmetic on the bounds). -/
def splitChildren (level : Nat) (bounds : QBounds) :
    Quadtree × Quadtree × Quadtree × Quadtree :=
  let halfWidth : ℚ := (toInt32 ((shr1q bounds.width : ℚ) + 1/2) : ℚ)
  let halfHeight : ℚ := (toInt32 ((shr1q bounds.height : ℚ) + 1/2) : ℚ)
  let x : ℚ := (toInt32 (bounds.x + 1/2) : ℚ)
  let y : ℚ := (toInt32 (bounds.y + 1/2) : ℚ)
  (Quadtree.leaf (level + 1) ⟨x + halfWidth, y, halfWidth, halfHeight⟩ [],
   Quadtree.leaf (level + 1) ⟨x, y, halfWidth, halfHeight⟩ [],
   Quadtree.leaf (level + 1) ⟨x, y + halfHeight, halfWidth, halfHeight⟩ [],
   Quadtree.leaf (level + 1) ⟨x + halfWidth, y + halfHeight, halfWidth,
     halfHeight⟩ [])

/-- The redistribution `while` loop inside `insert`: walk the node's object
list in order; an object that now fits in a single child is spliced out and
inserted there (`ins`), the rest stay, order preserved. -/
def redistribute (ins : Quadtree → QBody → Quadtree) (bounds : QBounds) :
    List QBody → List QBody → Quadtree → Quadtree → Quadtree → Quadtree →
    List QBody × Quadtree × Quadtree × Quadtree × Quadtree
  | [], kept, c0, c1, c2, c3 => (kept, c0, c1, c2, c3)
  | o :: rest, kept, c0, c1, c2, c3 =>
      let i := getIndex bounds o.cache
      if smallIndex i then
        if i = 0 then redistribute ins bounds rest kept (ins c0 o) c1 c2 c3
        else if i = 1 then redistribute ins bounds rest kept c0 (ins c1 o) c2 c3
        else if i = 2 then redistribute ins bounds rest kept c0 c1 (ins c2 o) c3
        else redistribute ins bounds rest kept c0 c1 c2 (ins c3 o)
      else redistribute ins bounds rest (kept ++ [o]) c0 c1 c2 c3

/-- Fuel-0 fallback: store the object at the current node without descending
or splitting.  Unreachable when `insert` is called with its real fuel, since
every recursive `insert` call in the source goes to a node one level deeper
and splitting stops at `MAX_LEVELS`. -/
def pushHere : Quadtree → QBody → Quadtree
  | Quadtree.leaf l bd objs, b => Quadtree.leaf l bd (objs ++ [b])
  | Quadtree.node l bd objs c0 c1 c2 c3, b =>
      Quadtree.node l bd (objs ++ [b]) c0 c1 c2 c3

/-- `insert(physObj)`, with explicit recursion fuel standing for the bounded
descent depth (each recursive call in the source is one level deeper). -/
def insertF : Nat → Quadtree → QBody → Quadtree
  | 0, t, b => pushHere t b
  | fuel + 1, Quadtree.leaf l bd objs, b =>
      let objs2 := objs ++ [b]
      if objs2.length > MAX_OBJECTS ∧ l < MAX_LEVELS then
        let c := splitChildren l bd
        let r := redistribute (insertF fuel) bd objs2 [] c.1 c.2.1 c.2.2.1
          c.2.2.2
        Quadtree.node l bd r.1 r.2.1 r.2.2.1 r.2.2.2.1 r.2.2.2.2
      else Quadtree.leaf l bd objs2
  | fuel + 1, Quadtree.node l bd objs c0 c1 c2 c3, b =>
      let i := getIndex bd b.cache
      if smallIndex i then
        if i = 0 then Quadtree.node l bd objs (insertF fuel c0 b) c1 c2 c3
        else if i = 1 then Quadtree.node l bd objs c0 (insertF fuel c1 b) c2 c3
        else if i = 2 then Quadtree.node l bd objs c0 c1 (insertF fuel c2 b) c3
        else Quadtree.node l bd objs c0 c1 c2 (insertF fuel c3 b)
      else
        let objs2 := objs ++ [b]
        if objs2.length > MAX_OBJECTS ∧ l < MAX_LEVELS then
          let r := redistribute (insertF fuel) bd objs2 [] c0 c1 c2 c3
          Quadtree.node l bd r.1 r.2.1 r.2.2.1 r.2.2.2.1 r.2.2.2.2
        else Quadtree.node l bd objs2 c0 c1 c2 c3

/-- `insert(physObj)`.  Fuel `MAX_LEVELS + 1` covers every reachable descent:
nodes with children sit at levels < `MAX_LEVELS`, so a chain of recursive
calls is at most `MAX_LEVELS + 1` long. -/
def Quadtree.insert (t : Quadtree) (b : QBody) : Quadtree :=
  insertF (MAX_LEVELS + 1) t b

/-- `retrieve(objs, physObj)` as a pure function: the list accumulated into
`objs` (children first per the `switch`, then the node's own objects). -/
def retrieve : Quadtree → QBody → List QBody
  | Quadtree.leaf _ _ objs, _ => objs
  | Quadtree.node _ bd objs c0 c1 c2 c3, b =>
      let i := getIndex bd b.cache
      (if i = 4 then retrieve c1 b ++ retrieve c2 b
       else if i = 5 then retrieve c0 b ++ retrieve c3 b
       else if i = 6 then retrieve c0 b ++ retrieve c1 b
       else if i = 7 then retrieve c2 b ++ retrieve c3 b
       else if i = -1 then
         retrieve c0 b ++ retrieve c1 b ++ retrieve c2 b ++ retrieve c3 b
       else
         if i = 0 then retrieve c0 b
         else if i = 1 then retrieve c1 b
         else if i = 2 then retrieve c2 b
         else retrieve c3 b) ++ objs

/-!
## IEEE-special-value scalar type for the resolution pipeline

`_finalizeCollision` (Scene.js, third revision) and
`PhysicsObject.resolveCollisions` genuinely manufacture `Infinity` (fixed
bodies' mass) and can hit `0/0 = NaN` (normalizing a zero impulse sum), so
they are embedded over a scalar type carrying those values.  Finite
arithmetic is exact (no rounding); `-0` is identified with `0` (none of the
embedded paths distinguish them).
-/

inductive JsNum where
  | nan
  | inf (pos : Bool)
  | num (q : ℚ)
deriving DecidableEq, Repr

namespace JsNum

def neg : JsNum → JsNum
  | nan => nan
  | inf p => inf (!p)
  | num a => num (-a)

def add : JsNum → JsNum → JsNum
  | nan, _ => nan
  | _, nan => nan
  | inf p, inf q => if p = q then inf p else nan
  | inf p, num _ => inf p
  | num _, inf q => inf q
  | num a, num b => num (a + b)

def sub (x y : JsNum) : JsNum := add x (neg y)

def mul : JsNum → JsNum → JsNum
  | nan, _ => nan
  | _, nan => nan
  | inf p, inf q => inf (p == q)
  | inf p, num a => if a = 0 then nan else inf (p == decide (0 < a))
  | num a, inf q => if a = 0 then nan else inf (q == decide (0 < a))
  | num a, num b => num (a * b)

def div : JsNum → JsNum → JsNum
  | nan, _ => nan
  | _, nan => nan
  | inf _, inf _ => nan
  | inf p, num a => if a = 0 then inf p else inf (p == decide (0 < a))
  | num _, inf _ => num 0
  | num a, num b =>
      if b = 0 then (if a = 0 then nan else inf (decide (0 < a)))
      else num (jsDiv a b)

/-- JavaScript `<`: any comparison involving NaN is false. -/
def lt : JsNum → JsNum → Bool
  | nan, _ => false
  | _, nan => false
  | inf p, inf q => !p && q
  | inf p, num _ => !p
  | num _, inf q => q
  | num a, num b => decide (a < b)

def jabs : JsNum → JsNum
  | nan => nan
  | inf _ => inf true
  | num a => num |a|

def jfloor : JsNum → JsNum
  | nan => nan
  | inf p => inf p
  | num a => num ⌊a⌋

def jceil : JsNum → JsNum
  | nan => nan
  | inf p => inf p
  | num a => num ⌈a⌉

/-- `Math.sqrt` over JS values (exact-rational model via `ratSqrt`). -/
def jsqrt : JsNum → JsNum
  | nan => nan
  | inf p => if p then inf true else nan
  | num a => if a < 0 then nan else num (ratSqrt a)

end JsNum

/-- The PhysicsObject state touched by `_finalizeCollision` and
`resolveCollisions`: position, velocity, acceleration, the per-tick
accumulators, the previous-velocity snapshot, and the calculation-cache
mirror fields. -/
structure PObj where
  wflId : Nat
  fixed : Bool
  mass : JsNum
  restitution : JsNum
  posX : JsNum
  posY : JsNum
  velX : JsNum
  velY : JsNum
  accX : JsNum
  accY : JsNum
  prevVelX : JsNum
  prevVelY : JsNum
  dispX : JsNum
  dispY : JsNum
  impX : JsNum
  impY : JsNum
  momX : JsNum
  momY : JsNum
  cacheX : JsNum
  cacheY : JsNum
  cacheVx : JsNum
  cacheVy : JsNum
  cacheAx : JsNum
  cacheAy : JsNum
deriving DecidableEq, Repr

/-- `PhysicsObject.resolveCollisions()` (PhysicsObject.js lines 613-670):
project acceleration onto the normalized impulse-sum direction, set the new
velocity to momentum sum + surface impulse sum + adjusted acceleration,
snap the accumulated displacement outward to integers, halve it
(`COLLISION_DISPLACEMENT_PERCENTAGE_CORRECTION`), zero it under the slop
(0.1), apply it to position and cache, and finally zero the velocity if its
magnitude is below 0.001. -/
def resolveCollisions (o : PObj) : PObj :=
  let mag := JsNum.jsqrt (JsNum.add (JsNum.mul o.impX o.impX)
    (JsNum.mul o.impY o.impY))
  let dirX := JsNum.div o.impX mag
  let dirY := JsNum.div o.impY mag
  let accDot := JsNum.add (JsNum.mul o.accX dirX) (JsNum.mul o.accY dirY)
  let ax := JsNum.mul dirX accDot
  let ay := JsNum.mul dirY accDot
  let vX := JsNum.add (JsNum.add o.momX o.impX) ax
  let vY := JsNum.add (JsNum.add o.momY o.impY) ay
  let dxA := if JsNum.lt o.dispX (JsNum.num 0) then JsNum.jfloor o.dispX
    else JsNum.jceil o.dispX
  let dyA := if JsNum.lt o.dispY (JsNum.num 0) then JsNum.jfloor o.dispY
    else JsNum.jceil o.dispY
  let dxB := JsNum.mul dxA (JsNum.num (mkRat 1 2))
  let dyB := JsNum.mul dyA (JsNum.num (mkRat 1 2))
  let dx := if JsNum.lt (JsNum.jabs dxB) (JsNum.num (mkRat 1 10)) then JsNum.num 0
    else dxB
  let dy := if JsNum.lt (JsNum.jabs dyB) (JsNum.num (mkRat 1 10)) then JsNum.num 0
    else dyB
  let vmag := JsNum.jsqrt (JsNum.add (JsNum.mul vX vX) (JsNum.mul vY vY))
  let velX := if JsNum.lt vmag (JsNum.num (mkRat 1 1000)) then JsNum.mul vX
    (JsNum.num 0) else vX
  let velY := if JsNum.lt vmag (JsNum.num (mkRat 1 1000)) then JsNum.mul vY
    (JsNum.num 0) else vY
  { o with
    accX := ax, accY := ay, cacheAx := ax, cacheAy := ay,
    velX := velX, velY := velY, cacheVx := vX, cacheVy := vY,
    posX := JsNum.add o.posX dx, posY := JsNum.add o.posY dy,
    cacheX := JsNum.add o.cacheX dx, cacheY := JsNum.add o.cacheY dy }

/-- The `_collisionObjectCache` / `_collisionObjects` slice of scene state
mutated by `_finalizeCollision`. -/
structure SceneCol where
  collisionObjectCache : List Nat
  collisionObjects : List Nat
deriving DecidableEq, Repr

/-- The per-object half of `_finalizeCollision` (Scene.js): when this
object's share of the depth is nonzero, accumulate its displacement, mark it
in the scene caches, and accumulate its restitution-scaled momentum from the
conservation-of-momentum formulas (infinite-partner-mass special case
included). -/
def finalizeHalf (s : SceneCol) (obj other : PObj) (m mOther : JsNum)
    (depth : JsNum) (dirX dirY : JsNum) (restitution : JsNum) :
    SceneCol × PObj :=
  if depth ≠ JsNum.num 0 then
    let obj1 := { obj with
      dispX := JsNum.sub obj.dispX (JsNum.mul dirX depth),
      dispY := JsNum.sub obj.dispY (JsNum.mul dirY depth) }
    let s1 :=
      if s.collisionObjectCache.contains obj.wflId then s
      else
        { collisionObjectCache := s.collisionObjectCache ++ [obj.wflId],
          collisionObjects :=
            if obj.fixed then s.collisionObjects
            else s.collisionObjects ++ [obj.wflId] }
    let momX :=
      if mOther = JsNum.inf true then
        JsNum.sub (JsNum.mul (JsNum.num 2) other.prevVelX) obj.prevVelX
      else
        JsNum.add
          (JsNum.div (JsNum.mul obj.prevVelX (JsNum.sub m mOther))
            (JsNum.add m mOther))
          (JsNum.div (JsNum.mul (JsNum.mul other.prevVelX (JsNum.num 2))
            mOther) (JsNum.add m mOther))
    let momY :=
      if mOther = JsNum.inf true then
        JsNum.sub (JsNum.mul (JsNum.num 2) other.prevVelY) obj.prevVelY
      else
        JsNum.add
          (JsNum.div (JsNum.mul obj.prevVelY (JsNum.sub m mOther))
            (JsNum.add m mOther))
          (JsNum.div (JsNum.mul (JsNum.mul other.prevVelY (JsNum.num 2))
            mOther) (JsNum.add m mOther))
    (s1, { obj1 with
      momX := JsNum.add obj1.momX (JsNum.mul momX restitution),
      momY := JsNum.add obj1.momY (JsNum.mul momY restitution) })
  else (s, obj)

/-- `Scene._finalizeCollision(obj0, obj1, collisionData)` (Scene.js third
revision, lines 1893-2010): split the penetration depth by the fixed flags,
apply both halves (obj1's with the direction flipped), fire the no-op base
`onCollide` hooks, then call `resolveCollisions()` on both objects. -/
def finalizeCollision (s : SceneCol) (obj0 obj1 : PObj)
    (contactDepth : JsNum) (dirX dirY : JsNum) : SceneCol × PObj × PObj :=
  let totalDepth := JsNum.add contactDepth (JsNum.num (mkRat 1 1000))
  let m0 := if obj0.fixed then JsNum.inf true else obj0.mass
  let m1 := if obj1.fixed then JsNum.inf true else obj1.mass
  let restitution := JsNum.mul obj0.restitution obj1.restitution
  let depth0 :=
    if ¬obj0.fixed ∧ ¬obj1.fixed then
      JsNum.mul totalDepth (JsNum.num (mkRat 1 2))
    else if ¬obj0.fixed then totalDepth
    else JsNum.num 0
  let depth1 :=
    if ¬obj0.fixed ∧ ¬obj1.fixed then
      JsNum.mul totalDepth (JsNum.num (mkRat 1 2))
    else if ¬obj0.fixed then JsNum.num 0
    else totalDepth
  let r0 := finalizeHalf s obj0 obj1 m0 m1 depth0 dirX dirY restitution
  let r1 := finalizeHalf r0.1 obj1 obj0 m1 m0 depth1 (JsNum.neg dirX)
    (JsNum.neg dirY) restitution
  (r1.1, resolveCollisions r0.2, resolveCollisions r1.2)

/-- Failing input for the fixed-body invariant: a unit-mass moving body
colliding with a fixed body at rest, contact depth 1, direction (1, 0). -/
def movingObjA : PObj :=
  { wflId := 0, fixed := false, mass := JsNum.num 1,
    restitution := JsNum.num 0,
    posX := JsNum.num (-1), posY := JsNum.num 0,
    velX := JsNum.num 1, velY := JsNum.num 0,
    accX := JsNum.num 0, accY := JsNum.num 0,
    prevVelX := JsNum.num 1, prevVelY := JsNum.num 0,
    dispX := JsNum.num 0, dispY := JsNum.num 0,
    impX := JsNum.num 0, impY := JsNum.num 0,
    momX := JsNum.num 0, momY := JsNum.num 0,
    cacheX := JsNum.num (-1), cacheY := JsNum.num 0,
    cacheVx := JsNum.num 1, cacheVy := JsNum.num 0,
    cacheAx := JsNum.num 0, cacheAy := JsNum.num 0 }

/-- The fixed collision partner, at rest with all accumulators zero (fixed
bodies are excluded from `_resetCollisionData`, but their accumulators start
at zero and are never written). -/
def fixedObjB : PObj :=
  { wflId := 1, fixed := true, mass := JsNum.num 1,
    restitution := JsNum.num 0,
    posX := JsNum.num 0, posY := JsNum.num 0,
    velX := JsNum.num 0, velY := JsNum.num 0,
    accX := JsNum.num 0, accY := JsNum.num 0,
    prevVelX := JsNum.num 0, prevVelY := JsNum.num 0,
    dispX := JsNum.num 0, dispY := JsNum.num 0,
    impX := JsNum.num 0, impY := JsNum.num 0,
    momX := JsNum.num 0, momY := JsNum.num 0,
    cacheX := JsNum.num 0, cacheY := JsNum.num 0,
    cacheVx := JsNum.num 0, cacheVy := JsNum.num 0,
    cacheAx := JsNum.num 0, cacheAy := JsNum.num 0 }

/-!
## Narrow phase: SAT (PhysicsObject.checkNarrowPhaseCollision)

A body here is its vertex list (ring order, local space) plus its calculation
cache.  `_satGetAxes` caches its result on the object, invalidated on
rotation/frame change; it is deterministic in the vertices, so it is a pure
function here.  The JS loop seeds `smallestOverlap = Infinity`; an `Option`
accumulator plays that role (the first overlapping axis always replaces it).
The source also computes `velocityDirection`, `biggestMin` and `smallestMax`,
none of which affect the result (the axis filter using them is commented
out), so they are not modelled.
-/

structure NBody where
  vertices : List Vec2
  cache : CalcCache
deriving DecidableEq, Repr

/-- `_satGetAxes()`: one outward normal per polygon edge, normalized. -/
def satGetAxes (vertices : List Vec2) : List Vec2 :=
  (List.range vertices.length).map (fun i =>
    let v1 := vertices.getD i ⟨0, 0⟩
    let v2 := vertices.getD ((i + 1) % vertices.length) ⟨0, 0⟩
    let nx := v2.y - v1.y
    let ny := v1.x - v2.x
    let m := ratSqrt (nx * nx + ny * ny)
    ⟨jsDiv nx m, jsDiv ny m⟩)

/-- `_satGetProjectionOntoAxis(axis)`: the [min, max] interval of the dot
products of the world-space vertices (local + cached position) with the
axis.  The JS ±Infinity seeds reduce to first-element seeding for the
nonempty vertex lists every frame object has. -/
def satProjection (vertices : List Vec2) (cache : CalcCache) (axis : Vec2) :
    ℚ × ℚ :=
  match vertices with
  | [] => (0, 0)
  | v :: vs =>
      let d0 := (v.x + cache.x) * axis.x + (v.y + cache.y) * axis.y
      vs.foldl (fun mm w =>
        let d := (w.x + cache.x) * axis.x + (w.y + cache.y) * axis.y
        (if d < mm.1 then d else mm.1, if d > mm.2 then d else mm.2))
        (d0, d0)

/-- The axis list tested for a pair:
`this._satGetAxes().concat(physObj._satGetAxes())`. -/
def allAxes (a b : NBody) : List Vec2 :=
  satGetAxes a.vertices ++ satGetAxes b.vertices

/-- The per-axis overlap test
`projection1.min <= projection2.max && projection1.max >= projection2.min`. -/
def overlapping (a b : NBody) (axis : Vec2) : Prop :=
  (satProjection a.vertices a.cache axis).1 ≤
    (satProjection b.vertices b.cache axis).2 ∧
  (satProjection a.vertices a.cache axis).2 ≥
    (satProjection b.vertices b.cache axis).1

instance (a b : NBody) (axis : Vec2) : Decidable (overlapping a b axis) :=
  instDecidableAnd

/-- The quantity the source minimizes per axis:
`displacementLength = Math.abs(projection2.max - projection1.min)`. -/
def dLen (a b : NBody) (axis : Vec2) : ℚ :=
  |(satProjection b.vertices b.cache axis).2 -
    (satProjection a.vertices a.cache axis).1|

/-- The final orientation fix: flip the chosen axis when its dot product
with the center-to-center displacement is negative. -/
def orientToward (a b : NBody) (axis : Vec2) : Vec2 :=
  let dx := b.cache.x - a.cache.x
  let dy := b.cache.y - a.cache.y
  if dx * axis.x + dy * axis.y < 0 then ⟨-axis.x, -axis.y⟩ else axis

/-- The axis loop of `checkNarrowPhaseCollision`: early-exit `none` on a
separating axis, else track the strictly smallest `dLen` (first wins ties),
and finally orient the winner. -/
def narrowGo (a b : NBody) : List Vec2 → Option (ℚ × Vec2) → Option Vec2
  | [], none => none
  | [], some best => some (orientToward a b best.2)
  | axis :: rest, best =>
      if overlapping a b axis then
        let d := dLen a b axis
        let best2 :=
          match best with
          | none => some (d, axis)
          | some (bv, bax) => if d < bv then some (d, axis) else some (bv, bax)
        narrowGo a b rest best2
      else none

/-- `checkNarrowPhaseCollision(physObj, collisionData)`: `some direction`
when colliding (the source then writes `colliding = true` and `direction`
into collisionData), `none` otherwise. -/
def checkNarrowPhaseCollision (a b : NBody) : Option Vec2 :=
  narrowGo a b (allAxes a b) none

/-- From the spec's words: "the axis with the smallest overlap magnitude
between the two projection intervals" -- the width of the intersection of
the two projection intervals.  This is the quantity the claim says the
narrow phase minimizes; compare with `dLen`, the quantity the source
actually minimizes. -/
def specIntervalOverlap (a b : NBody) (axis : Vec2) : ℚ :=
  min (satProjection a.vertices a.cache axis).2
    (satProjection b.vertices b.cache axis).2 -
  max (satProjection a.vertices a.cache axis).1
    (satProjection b.vertices b.cache axis).1

/-- Counterexample bodies for C2: a 20-by-20 square at the origin and a
2-by-10 rectangle centered at (0, 10): overlapping, with the rectangle's x
extent strictly inside the square's. -/
def sqA : NBody :=
  ⟨[⟨-10, -10⟩, ⟨10, -10⟩, ⟨10, 10⟩, ⟨-10, 10⟩], ⟨0, 0, 20, 20, 20, 20⟩⟩

def rectB : NBody :=
  ⟨[⟨-1, -5⟩, ⟨1, -5⟩, ⟨1, 5⟩, ⟨-1, 5⟩], ⟨0, 10, 2, 10, 2, 10⟩⟩

/-!
## PhysicsObject.update integration (PhysicsObject.js lines 139-167)

`Math.cos` / `Math.sin` / `Math.atan2` and the display-angle rounding
(`Math.round(angle / (2*pi/32)) * (2*pi/32)`, which involves the irrational
`pi`) are modelled as an oracle record: the claim's clamping and ordering
properties hold for every oracle.  The trailing animation-state block of
`update` (sprite bookkeeping) is outside the modelled physics state.
-/

structure TrigOracle where
  cos : ℚ → ℚ
  sin : ℚ → ℚ
  atan2 : ℚ → ℚ → ℚ
  displayRound : ℚ → ℚ

/-- The PhysicsObject state `update(dt)` touches. -/
structure UBody where
  pos : Vec2
  velocity : Vec2
  acceleration : Vec2
  maxSpeed : ℚ
  maxAcceleration : ℚ
deriving Repr

/-- The velocity after acceleration is applied but before `limit(maxSpeed)`:
`velocity + (cos(displayAngle), sin(displayAngle)) * |acceleration| * dt`. -/
def updateVel1 (o : TrigOracle) (u : UBody) (dt : ℚ) : Vec2 :=
  let acc := Vec2.limit u.acceleration u.maxAcceleration
  let displayAccelerationAngle := o.displayRound (o.atan2 acc.y acc.x)
  let accelerationMag := Vec2.mag acc
  ⟨u.velocity.x + o.cos displayAccelerationAngle * accelerationMag * dt,
   u.velocity.y + o.sin displayAccelerationAngle * accelerationMag * dt⟩

/-- `PhysicsObject.update(dt)`: clamp acceleration, integrate the
display-rounded acceleration into velocity, clamp velocity, then apply the
clamped velocity to the position. -/
def update (o : TrigOracle) (u : UBody) (dt : ℚ) : UBody :=
  let acc := Vec2.limit u.acceleration u.maxAcceleration
  let v2 := Vec2.limit (updateVel1 o u dt) u.maxSpeed
  { u with
    pos := ⟨u.pos.x + v2.x * dt, u.pos.y + v2.y * dt⟩,
    velocity := v2,
    acceleration := acc }

/-!
## Contact manifold clipping and checkCollision
(PhysicsObject.js lines 257-608)

A body here carries everything `checkCollision` and `findContactManifold`
read or write: the vertex ring, the transform position, the calculation
cache, velocity, acceleration, the surface-impulse accumulator, and the
surface coefficients.  The prev/next links of the vertex ring are cyclic
indexing; the `!this.vertices[0].prev` early-out for bodies never given a
FrameObject is outside the model (every framed body is linked).
-/

structure CBody where
  vertices : List Vec2
  pos : Vec2
  cache : CalcCache
  velocity : Vec2
  acceleration : Vec2
  surfImpulse : Vec2
  mass : ℚ
  friction : ℚ
  restitution : ℚ
  fixed : Bool
deriving DecidableEq, Repr

def nbody (c : CBody) : NBody := ⟨c.vertices, c.cache⟩

/-- The record `_findContactManifoldBestEdge` returns. -/
structure BestEdge where
  maxProjectionVertex : Vec2
  v0 : Vec2
  v1 : Vec2
deriving DecidableEq, Repr

/-- A contact point with its penetration depth. -/
structure MPoint where
  point : Vec2
  depth : ℚ
deriving DecidableEq, Repr

/-- `_findContactManifoldBestEdge(separationNormal)`: find the vertex
furthest along the normal (strict `>` against a 0-seeded best, so `none`
when no vertex projects positively -- a case the JS source would crash on
and which cannot arise for the frame polygons, whose vertex rings surround
their local origin), then return the more-perpendicular of its two incident
edges, in winding order. -/
def findBestEdge (vertices : List Vec2) (pos : Vec2) (normal : Vec2) :
    Option BestEdge :=
  let n := vertices.length
  let far := (List.range n).foldl (fun acc i =>
    let p := Vec2.dot (vertices.getD i ⟨0, 0⟩) normal
    if p > acc.1 then (p, some i) else acc) ((0 : ℚ), (none : Option ℕ))
  match far.2 with
  | none => none
  | some i =>
      let fv := vertices.getD i ⟨0, 0⟩
      let pv := vertices.getD ((i + n - 1) % n) ⟨0, 0⟩
      let nv := vertices.getD ((i + 1) % n) ⟨0, 0⟩
      let left := Vec2.normalize (Vec2.sub fv pv)
      let right := Vec2.normalize (Vec2.sub fv nv)
      if Vec2.dot left normal ≤ Vec2.dot right normal then
        some ⟨Vec2.add fv pos, Vec2.add pv pos, Vec2.add fv pos⟩
      else
        some ⟨Vec2.add fv pos, Vec2.add fv pos, Vec2.add nv pos⟩

/-- `_clipPoints(v0, v1, normal, offset)`: keep each endpoint at
nonnegative signed distance, and add the crossing point when the endpoints
sit on opposite sides. -/
def clipPoints (v0 v1 normal : Vec2) (offset : ℚ) : List Vec2 :=
  let dist0 := Vec2.dot normal v0 - offset
  let dist1 := Vec2.dot normal v1 - offset
  (if dist0 ≥ 0 then [v0] else []) ++
  (if dist1 ≥ 0 then [v1] else []) ++
  (if dist0 * dist1 < 0 then
    [Vec2.add (Vec2.smul (Vec2.sub v1 v0) (jsDiv dist0 (dist0 - dist1))) v0]
  else [])

/-- Steps 1-2 of `findContactManifold`: both best edges (the second against
the flipped normal), then reference/incident selection by which edge is
more perpendicular to the separation normal. -/
def fcmEdges (a b : CBody) (direction : Vec2) :
    Option (BestEdge × BestEdge) :=
  match findBestEdge a.vertices a.pos direction,
      findBestEdge b.vertices b.pos ⟨-direction.x, -direction.y⟩ with
  | some bestEdge, some otherBestEdge =>
      let e1DotN := Vec2.dot (Vec2.sub bestEdge.v1 bestEdge.v0) direction
      let e2DotN := Vec2.dot (Vec2.sub otherBestEdge.v1 otherBestEdge.v0)
        direction
      if |e1DotN| ≤ |e2DotN| then some (bestEdge, otherBestEdge)
      else some (otherBestEdge, bestEdge)
  | _, _ => none

/-- First clip pass: the incident edge against the reference edge's first
side plane. -/
def fcmClip1 (a b : CBody) (direction : Vec2) : List Vec2 :=
  match fcmEdges a b direction with
  | none => []
  | some (referenceEdge, incidentEdge) =>
      let refEdgeDirection :=
        Vec2.normalize (Vec2.sub referenceEdge.v1 referenceEdge.v0)
      let offset1 := Vec2.dot refEdgeDirection referenceEdge.v0
      clipPoints incidentEdge.v0 incidentEdge.v1 refEdgeDirection offset1

/-- Second clip pass: the two survivors of the first pass against the
reference edge's other side plane (flipped direction and offset).  Empty
when the first pass left fewer than 2 points. -/
def fcmClip2 (a b : CBody) (direction : Vec2) : List Vec2 :=
  match fcmEdges a b direction with
  | none => []
  | some (referenceEdge, _) =>
      let c1 := fcmClip1 a b direction
      match c1 with
      | p0 :: p1 :: _ =>
          let refEdgeDirection :=
            Vec2.normalize (Vec2.sub referenceEdge.v1 referenceEdge.v0)
          let offset2 := Vec2.dot refEdgeDirection referenceEdge.v1
          clipPoints p0 p1 ⟨-refEdgeDirection.x, -refEdgeDirection.y⟩
            (-offset2)
      | _ => []

/-- `findContactManifold(physObj, collisionData)`: returns the contact
manifold (clipped points with nonnegative depth) and the `edgeDirection`
the source stores into collisionData when the manifold is nonempty. -/
def findContactManifold (a b : CBody) (direction : Vec2) :
    List MPoint × Option Vec2 :=
  match fcmEdges a b direction with
  | none => ([], none)
  | some (referenceEdge, incidentEdge) =>
      if (fcmClip1 a b direction).length < 2 then ([], none)
      else
        match fcmClip2 a b direction with
        | q0 :: q1 :: _ =>
            let refEdgeDirection :=
              Vec2.normalize (Vec2.sub referenceEdge.v1 referenceEdge.v0)
            let refEdgeNormal :=
              ⟨-(Vec2.getOrthogonal refEdgeDirection).x,
               -(Vec2.getOrthogonal refEdgeDirection).y⟩
            let maxDepth :=
              Vec2.dot refEdgeNormal referenceEdge.maxProjectionVertex
            let d0 := Vec2.dot refEdgeNormal q0 - maxDepth
            let d1 := Vec2.dot refEdgeNormal q1 - maxDepth
            let contactManifold :=
              (if d0 < 0 then [] else [MPoint.mk q0 d0]) ++
              (if d1 < 0 then [] else [MPoint.mk q1 d1])
            let edgeDirection :=
              if contactManifold.length > 0 then
                let ed := Vec2.normalize (Vec2.sub q1 q0)
                let incEdgeDirection :=
                  Vec2.normalize (Vec2.sub incidentEdge.v1 incidentEdge.v0)
                if Vec2.dot ed incEdgeDirection < 0 then
                  some (⟨-ed.x, -ed.y⟩ : Vec2)
                else some ed
              else none
            (contactManifold, edgeDirection)
        | _ => ([], none)

/-- The `maxDepth / bestContactPoint` scan in `checkCollision`: strict `>`
against a -Infinity seed, so the first deepest point wins ties. -/
def bestContactPoint (contactManifold : List MPoint) : Option MPoint :=
  contactManifold.foldl (fun acc p =>
    match acc with
    | none => some p
    | some q => if p.depth > q.depth then some p else some q) none

structure CollisionData where
  colliding : Bool
  direction : Option Vec2
  contactPoint : Option MPoint
  edgeDirection : Option Vec2
deriving DecidableEq, Repr

/-- One sample advance: move by the velocity increment and refresh the
cache's x/y from the position. -/
def advanceSample (a : CBody) (inc : Vec2) : CBody :=
  { a with
    pos := Vec2.add a.pos inc,
    cache := { a.cache with x := a.pos.x + inc.x, y := a.pos.y + inc.y } }

/-- The multi-sample loop of `checkCollision`: at each sample, advance,
narrow-phase test, and on a hit build the manifold; break with the deepest
contact point (after accumulating the friction surface impulse), or keep
sampling when the manifold produced no point. -/
def checkCollisionLoop (b : CBody) (inc : Vec2) :
    Nat → CBody → CollisionData → CBody × CBody × CollisionData
  | 0, a, data => (a, b, data)
  | n + 1, a, data =>
      let a1 := advanceSample a inc
      match checkNarrowPhaseCollision (nbody a1) (nbody b) with
      | none => checkCollisionLoop b inc n a1 data
      | some dir =>
          let fm := findContactManifold a1 b dir
          match bestContactPoint fm.1 with
          | none =>
              checkCollisionLoop b inc n a1
                { data with colliding := true, direction := some dir }
          | some p =>
              let friction := (a1.friction + b.friction) * (mkRat 1 2)
              let edge := fm.2.getD ⟨0, 0⟩
              let parallelComponent :=
                Vec2.dot edge a1.acceleration * (1 - friction)
              let impulse := Vec2.smul edge parallelComponent
              let impulseOverMassA : Vec2 :=
                ⟨jsDiv impulse.x a1.mass, jsDiv impulse.y a1.mass⟩
              let impulseOverMassB : Vec2 :=
                ⟨jsDiv impulse.x b.mass, jsDiv impulse.y b.mass⟩
              let a2 :=
                if b.fixed then
                  { a1 with surfImpulse := Vec2.add a1.surfImpulse impulse }
                else
                  { a1 with surfImpulse :=
                      Vec2.add a1.surfImpulse impulseOverMassA }
              let b2 :=
                if b.fixed then b
                else
                  { b with surfImpulse :=
                      Vec2.sub b.surfImpulse impulseOverMassB }
              (a2, b2,
                { colliding := true, direction := some dir,
                  contactPoint := some p, edgeDirection := fm.2 })

/-- JavaScript `Math.min` on two numbers (no NaN in this ℚ context). -/
def jsMinInt (x y : ℤ) : ℤ := if x ≤ y then x else y

/-- `checkCollision(physObj)`: broad phase, then multi-sampled narrow phase
along the current velocity plus surface-impulse sum.  When that sum is
nonzero, the body is stepped back by it and re-advanced in `sampleCount`
equal increments.  (With `jsDiv`, division by a zero `smallestSide` yields 0
rather than JS Infinity; theorems about this function assume a positive
smallest side.) -/
def checkCollision (a b : CBody) : CBody × CBody × CollisionData :=
  let data : CollisionData := ⟨false, none, none, none⟩
  if checkBroadPhaseCollision a.cache b.cache then
    let curVelocity := Vec2.add a.velocity a.surfImpulse
    let velocityMag := Vec2.mag curVelocity
    if velocityMag = 0 then
      checkCollisionLoop b ⟨0, 0⟩ 1 a data
    else
      let velocityDirection := Vec2.normalize curVelocity
      let smallestSide :=
        min (a.cache.width * (mkRat 1 2)) (a.cache.height * (mkRat 1 2))
      let possibleSampleCount : ℤ := ⌈jsDiv velocityMag smallestSide⌉
      let sampleCount : ℤ :=
        1 + jsMinInt possibleSampleCount MAX_COLLISION_MULTI_SAMPLE_COUNT
      let velocityIncrement :=
        Vec2.smul velocityDirection (jsDiv velocityMag (sampleCount : ℚ))
      let a0 := { a with
        pos := Vec2.sub a.pos curVelocity,
        cache := { a.cache with
          x := a.pos.x - curVelocity.x, y := a.pos.y - curVelocity.y } }
      checkCollisionLoop b velocityIncrement sampleCount.toNat a0 data
  else (a, b, data)

end WflGame

namespace WflGame

/-- C4 -- In `Game.update`, for every sequence of frame delta times and any
starting bank, (1) every dt handed to `scene.update` is at most 1; (2) when an
incoming dt exceeds 1 the excess `dt - 1` is banked into `_excessDt` in that
frame; (3) banked time is only redistributed, never created or lost: across
each frame the used dt plus the new bank equals the incoming dt plus the old
bank. -/
theorem game_update_dt_clamped (excessDt : ℚ) (dts : List ℚ) :
    (∀ d ∈ (gameUpdateRun excessDt dts).1, d ≤ 1) ∧
    (∀ dt : ℚ, dt > 1 → (gameUpdateDt excessDt dt).2 = excessDt + (dt - 1)) ∧
    (∀ dt : ℚ, (gameUpdateDt excessDt dt).1 + (gameUpdateDt excessDt dt).2 =
      dt + excessDt) := by
  refine ⟨?_, ?_, ?_⟩
  · induction dts generalizing excessDt with
    | nil => intro d hd; simp [gameUpdateRun] at hd
    | cons dt rest ih =>
        intro d hd
        simp only [gameUpdateRun, List.mem_cons] at hd
        rcases hd with h | h
        · subst h
          unfold gameUpdateDt
          split
          · exact le_refl 1
          · split
            · exact min_le_right _ 1
            · simp only [gt_iff_lt, not_lt] at *; assumption
        · exact ih _ _ h
  · intro dt hdt
    unfold gameUpdateDt
    simp [hdt]
  · intro dt
    unfold gameUpdateDt
    split
    · show 1 + (excessDt + (dt - 1)) = dt + excessDt
      ring
    · split
      · show min (excessDt + dt) 1 + (excessDt - (min (excessDt + dt) 1 - dt)) =
          dt + excessDt
        ring
      · rfl

/-- C8 -- The broad phase is symmetric: for any two cached AABBs,
`checkBroadPhaseCollision(A, B) = checkBroadPhaseCollision(B, A)`. -/
theorem broad_phase_symmetric (a b : CalcCache) :
    checkBroadPhaseCollision a b = checkBroadPhaseCollision b a := by
  unfold checkBroadPhaseCollision
  simp only [ge_iff_le]
  ac_rfl

/-- Witness for `game_update_dt_clamped` at `excessDt = 0`, `dts = [2]`: the
one executed frame uses dt 1 ≤ 1, and a frame of dt 2 banks excess 1. -/
theorem game_update_dt_clamped_witness :
    ((1 : ℚ) ≤ 1) ∧ (gameUpdateDt 0 2).2 = 0 + (2 - 1) :=
  ⟨(game_update_dt_clamped 0 [2]).1 1 (by decide),
   (game_update_dt_clamped 0 [2]).2.1 2 (by norm_num)⟩

/-- C9 -- The broad phase is boundary-inclusive: two cached AABBs that
exactly touch (the gap on one axis is exactly zero while neither axis is
separated) still report a broad-phase collision, because all four per-axis
comparisons in `checkBroadPhaseCollision` are non-strict. -/
theorem broad_phase_touching (a b : CalcCache)
    (hx : |a.x - b.x| ≤ (a.aabbWidth + b.aabbWidth) * (1/2))
    (hy : |a.y - b.y| ≤ (a.aabbHeight + b.aabbHeight) * (1/2))
    (_htouch : |a.x - b.x| = (a.aabbWidth + b.aabbWidth) * (1/2) ∨
              |a.y - b.y| = (a.aabbHeight + b.aabbHeight) * (1/2)) :
    checkBroadPhaseCollision a b = true := by
  rw [abs_le] at hx hy
  have hhalf : (mkRat 1 2 : ℚ) = 1/2 := by
    rw [Rat.mkRat_eq_div]
    norm_num
  simp only [checkBroadPhaseCollision, ge_iff_le, Bool.and_eq_true,
    decide_eq_true_eq, hhalf]
  obtain ⟨hx1, hx2⟩ := hx
  obtain ⟨hy1, hy2⟩ := hy
  exact ⟨⟨⟨by linarith, by linarith⟩, by linarith⟩, by linarith⟩

/-- Witness for `broad_phase_touching`: unit-ish boxes touching edge-to-edge
on the x axis. -/
theorem broad_phase_touching_witness :
    checkBroadPhaseCollision ⟨0, 0, 2, 2, 2, 2⟩ ⟨2, 0, 2, 2, 2, 2⟩ = true :=
  broad_phase_touching ⟨0, 0, 2, 2, 2, 2⟩ ⟨2, 0, 2, 2, 2, 2⟩
    (by norm_num) (by norm_num) (Or.inl (by norm_num))

theorem handleCollisionsLoop_succ_empty {σ α : Type}
    (pass : σ → List α → σ × List α) (k : Nat) (s : σ) (objs : List α)
    (h : (pass s objs).2.isEmpty = true) :
    handleCollisionsLoop pass (k + 1) s objs =
      ((pass s objs).1, [(pass s objs).2]) := by
  simp only [handleCollisionsLoop]
  rw [if_pos h]

theorem handleCollisionsLoop_succ_nonempty {σ α : Type}
    (pass : σ → List α → σ × List α) (k : Nat) (s : σ) (objs : List α)
    (h : (pass s objs).2.isEmpty = false) :
    handleCollisionsLoop pass (k + 1) s objs =
      ((handleCollisionsLoop pass k (pass s objs).1 (pass s objs).2).1,
       (pass s objs).2 ::
         (handleCollisionsLoop pass k (pass s objs).1 (pass s objs).2).2) := by
  simp only [handleCollisionsLoop]
  rw [if_neg]
  simp [h]

theorem handleCollisionsLoop_spec {σ α : Type}
    (pass : σ → List α → σ × List α) (iters : Nat) (s : σ) (objs : List α) :
    (handleCollisionsLoop pass iters s objs).2.length ≤ iters ∧
    (∀ i (h : i < (handleCollisionsLoop pass iters s objs).2.length),
      i + 1 < (handleCollisionsLoop pass iters s objs).2.length →
      (handleCollisionsLoop pass iters s objs).2.get ⟨i, h⟩ ≠ []) ∧
    ((handleCollisionsLoop pass iters s objs).2.length < iters →
      (handleCollisionsLoop pass iters s objs).2.getLast? = some []) := by
  induction iters generalizing s objs with
  | zero =>
      refine ⟨le_refl 0, ?_, ?_⟩
      · intro i h
        simp [handleCollisionsLoop] at h
      · intro h
        simp [handleCollisionsLoop] at h
  | succ k ih =>
      cases hE : (pass s objs).2.isEmpty with
      | true =>
          rw [handleCollisionsLoop_succ_empty pass k s objs hE]
          refine ⟨by simp, ?_, ?_⟩
          · intro i h hlt
            simp at hlt
          · intro _
            simp [List.isEmpty_iff.mp hE]
      | false =>
          rw [handleCollisionsLoop_succ_nonempty pass k s objs hE]
          obtain ⟨ih1, ih2, ih3⟩ := ih (pass s objs).1 (pass s objs).2
          have hNonempty : (pass s objs).2 ≠ [] := by
            intro hnil
            rw [hnil] at hE
            simp at hE
          refine ⟨by simpa using Nat.add_le_add_right ih1 1, ?_, ?_⟩
          · intro i h hlt
            match i with
            | 0 => simpa using hNonempty
            | Nat.succ j =>
                simp only [List.length_cons, Nat.succ_lt_succ_iff] at h hlt
                exact ih2 j h hlt
          · intro hlen
            simp only [List.length_cons, Nat.succ_lt_succ_iff] at hlen
            have hrest := ih3 hlen
            have hrne :
                (handleCollisionsLoop pass k (pass s objs).1
                  (pass s objs).2).2 ≠ [] := by
              intro hnil
              rw [hnil] at hrest
              simp at hrest
            obtain ⟨x, xs, hxe⟩ := List.exists_cons_of_ne_nil hrne
            rw [hxe] at hrest ⊢
            rw [List.getLast?_cons_cons]
            exact hrest

/-- C5 -- `_handleCollisions` executes at most `collisionIterations` passes
(default 8) of reset / detect / resolve, and exits early immediately after any
pass in which no object was added to `_collisionObjects`: every non-final pass
produced a non-empty collision set, and if fewer than `collisionIterations`
passes ran, the final pass's collision set was empty. -/
theorem handle_collisions_iteration_bound {σ α : Type}
    (pass : σ → List α → σ × List α) (collisionIterations : Nat) (s : σ)
    (gameObjects : List α) (fixedFlag solidFlag : α → Bool) :
    DEFAULT_MAX_COLLISION_ITERATIONS = 8 ∧
    (handleCollisions pass collisionIterations s gameObjects fixedFlag
        solidFlag).2.length ≤ collisionIterations ∧
    (∀ i (h : i < (handleCollisions pass collisionIterations s gameObjects
        fixedFlag solidFlag).2.length),
      i + 1 < (handleCollisions pass collisionIterations s gameObjects
        fixedFlag solidFlag).2.length →
      (handleCollisions pass collisionIterations s gameObjects fixedFlag
        solidFlag).2.get ⟨i, h⟩ ≠ []) ∧
    ((handleCollisions pass collisionIterations s gameObjects fixedFlag
        solidFlag).2.length < collisionIterations →
      (handleCollisions pass collisionIterations s gameObjects fixedFlag
        solidFlag).2.getLast? = some []) := by
  obtain ⟨h1, h2, h3⟩ := handleCollisionsLoop_spec pass collisionIterations s
    (gameObjects.filter (fun o => !fixedFlag o && solidFlag o))
  exact ⟨rfl, h1, h2, h3⟩

/-- Witness for `handle_collisions_iteration_bound`: a pass function that
never finds collisions stops after one pass, whose collision set is empty. -/
theorem handle_collisions_iteration_bound_witness :
    (handleCollisions (fun (s : Unit) (_ : List Nat) => (s, ([] : List Nat)))
        DEFAULT_MAX_COLLISION_ITERATIONS () [1] (fun _ => false)
        (fun _ => true)).2.getLast? = some [] :=
  (handle_collisions_iteration_bound
      (fun (s : Unit) (_ : List Nat) => (s, ([] : List Nat)))
      DEFAULT_MAX_COLLISION_ITERATIONS () [1] (fun _ => false)
      (fun _ => true)).2.2.2 (by decide)

theorem redistribute_append (ins : Quadtree → QBody → Quadtree)
    (bd : QBounds) (xs ys : List QBody) :
    ∀ kept c0 c1 c2 c3,
    redistribute ins bd (xs ++ ys) kept c0 c1 c2 c3 =
      redistribute ins bd ys
        (redistribute ins bd xs kept c0 c1 c2 c3).1
        (redistribute ins bd xs kept c0 c1 c2 c3).2.1
        (redistribute ins bd xs kept c0 c1 c2 c3).2.2.1
        (redistribute ins bd xs kept c0 c1 c2 c3).2.2.2.1
        (redistribute ins bd xs kept c0 c1 c2 c3).2.2.2.2 := by
  induction xs with
  | nil =>
      intro kept c0 c1 c2 c3
      simp [redistribute]
  | cons o rest ih =>
      intro kept c0 c1 c2 c3
      simp only [List.cons_append, redistribute]
      split
      · split
        · exact ih _ _ _ _ _
        · split
          · exact ih _ _ _ _ _
          · split
            · exact ih _ _ _ _ _
            · exact ih _ _ _ _ _
      · exact ih _ _ _ _ _

theorem mem_retrieve_insertF (b : QBody) :
    ∀ (fuel : Nat) (t : Quadtree), b ∈ retrieve (insertF fuel t b) b := by
  intro fuel
  induction fuel with
  | zero =>
      intro t
      cases t with
      | leaf l bd objs => simp [insertF, pushHere, retrieve]
      | node l bd objs c0 c1 c2 c3 => simp [insertF, pushHere, retrieve]
  | succ n ih =>
      intro t
      cases t with
      | leaf l bd objs =>
          simp only [insertF]
          by_cases hsplit : (objs ++ [b]).length > MAX_OBJECTS ∧ l < MAX_LEVELS
          · rw [if_pos hsplit]
            rw [redistribute_append]
            simp only [redistribute]
            by_cases hsm : smallIndex (getIndex bd b.cache) = true
            · rw [if_pos hsm]
              have hsm2 := hsm
              simp only [smallIndex, Bool.and_eq_true, decide_eq_true_eq,
                gt_iff_lt] at hsm2
              have hi : getIndex bd b.cache = 0 ∨ getIndex bd b.cache = 1 ∨
                  getIndex bd b.cache = 2 ∨ getIndex bd b.cache = 3 := by
                omega
              rcases hi with hi | hi | hi | hi <;>
                simp only [hi, redistribute, retrieve] <;>
                norm_num <;>
                exact Or.inl (ih _)
            · rw [if_neg hsm]
              simp only [redistribute, retrieve]
              simp
          · rw [if_neg hsplit]
            simp [retrieve]
      | node l bd objs c0 c1 c2 c3 =>
          simp only [insertF]
          by_cases hsm : smallIndex (getIndex bd b.cache) = true
          · rw [if_pos hsm]
            have hsm2 := hsm
            simp only [smallIndex, Bool.and_eq_true, decide_eq_true_eq,
              gt_iff_lt] at hsm2
            have hi : getIndex bd b.cache = 0 ∨ getIndex bd b.cache = 1 ∨
                getIndex bd b.cache = 2 ∨ getIndex bd b.cache = 3 := by
              omega
            rcases hi with hi | hi | hi | hi <;>
              simp only [hi, retrieve] <;>
              norm_num <;>
              exact Or.inl (ih _)
          · rw [if_neg hsm]
            by_cases hsplit : (objs ++ [b]).length > MAX_OBJECTS ∧
                l < MAX_LEVELS
            · rw [if_pos hsplit]
              rw [redistribute_append]
              simp only [redistribute]
              rw [if_neg hsm]
              simp [retrieve]
            · rw [if_neg hsplit]
              simp [retrieve]

/-- C3 -- Every body inserted into the quadtree is retrievable: querying
`retrieve` with the same body (same calculation cache, tree unchanged in
between) returns a list containing that body. -/
theorem quadtree_insert_retrievable (t : Quadtree) (b : QBody) :
    b ∈ retrieve (t.insert b) b :=
  mem_retrieve_insertF b (MAX_LEVELS + 1) t

/-- C1 -- Exhibit of the fixed-body bug: running the per-tick collision
pipeline (`_finalizeCollision`, which ends by calling `resolveCollisions` on
both bodies) on a moving unit-mass body against a fixed body at rest leaves
the fixed body's position unchanged but corrupts its velocity (and
acceleration) to NaN: `resolveCollisions` normalizes the fixed body's
all-zero `collisionSurfaceImpulseSum`, and 0/0 is NaN.  The spec's fixed-body
invariant (position/velocity never change) is therefore violated by the code.
-/
theorem fixed_body_velocity_becomes_nan :
    ((finalizeCollision ⟨[], []⟩ movingObjA fixedObjB (JsNum.num 1)
        (JsNum.num 1) (JsNum.num 0)).2.2.velX = JsNum.nan ∧
     (finalizeCollision ⟨[], []⟩ movingObjA fixedObjB (JsNum.num 1)
        (JsNum.num 1) (JsNum.num 0)).2.2.velY = JsNum.nan) ∧
    (fixedObjB.velX = JsNum.num 0 ∧ fixedObjB.velY = JsNum.num 0) ∧
    ((finalizeCollision ⟨[], []⟩ movingObjA fixedObjB (JsNum.num 1)
        (JsNum.num 1) (JsNum.num 0)).2.2.posX = fixedObjB.posX ∧
     (finalizeCollision ⟨[], []⟩ movingObjA fixedObjB (JsNum.num 1)
        (JsNum.num 1) (JsNum.num 0)).2.2.posY = fixedObjB.posY) := by
  with_unfolding_all decide

/-- C2 counterexample -- the narrow phase does not select the axis of
smallest interval overlap: for `sqA` and `rectB` it reports direction (0, 1),
an axis whose projection-interval overlap is 5, while the tested axis (1, 0)
has interval overlap 2. -/
theorem narrow_phase_not_interval_overlap :
    checkNarrowPhaseCollision sqA rectB = some ⟨0, 1⟩ ∧
    (⟨1, 0⟩ : Vec2) ∈ allAxes sqA rectB ∧
    specIntervalOverlap sqA rectB ⟨1, 0⟩ = 2 ∧
    specIntervalOverlap sqA rectB ⟨0, 1⟩ = 5 ∧
    specIntervalOverlap sqA rectB ⟨0, -1⟩ = 5 := by
  with_unfolding_all decide

theorem narrowGo_some_spec (a b : NBody) (axes : List Vec2) :
    ∀ (v : ℚ) (ax : Vec2),
    (∀ x ∈ axes, overlapping a b x) →
    (narrowGo a b axes (some (v, ax)) = some (orientToward a b ax) ∧
       ∀ x ∈ axes, v ≤ dLen a b x) ∨
    (∃ (i : ℕ) (h : i < axes.length),
       narrowGo a b axes (some (v, ax)) =
         some (orientToward a b (axes.get ⟨i, h⟩)) ∧
       dLen a b (axes.get ⟨i, h⟩) < v ∧
       (∀ j (hj : j < axes.length),
         dLen a b (axes.get ⟨i, h⟩) ≤ dLen a b (axes.get ⟨j, hj⟩)) ∧
       (∀ j (hj : j < i),
         dLen a b (axes.get ⟨i, h⟩) <
           dLen a b (axes.get ⟨j, Nat.lt_trans hj h⟩))) := by
  induction axes with
  | nil =>
      intro v ax _
      left
      refine ⟨rfl, ?_⟩
      intro x hx
      simp at hx
  | cons axis rest ih =>
      intro v ax hover
      have hoAxis : overlapping a b axis := hover axis (by simp)
      have hoRest : ∀ x ∈ rest, overlapping a b x := by
        intro x hx
        exact hover x (by simp [hx])
      simp only [narrowGo, if_pos hoAxis]
      by_cases hd : dLen a b axis < v
      · rw [if_pos hd]
        rcases ih (dLen a b axis) axis hoRest with ⟨heq, hall⟩ | hex
        · right
          refine ⟨0, by simp, ?_, hd, ?_, ?_⟩
          · simpa using heq
          · intro j hj
            match j with
            | 0 => simp
            | Nat.succ k =>
                simp only [List.length_cons, Nat.succ_lt_succ_iff] at hj
                simpa using hall (rest.get ⟨k, hj⟩) (List.get_mem rest k hj)
          · intro j hj
            omega
        · obtain ⟨i, hi, heq, hlt, hall, hstrict⟩ := hex
          right
          refine ⟨i + 1, by simpa using Nat.succ_lt_succ hi, ?_, ?_, ?_, ?_⟩
          · simpa using heq
          · exact lt_trans hlt hd
          · intro j hj
            match j with
            | 0 =>
                simp only [List.get]
                exact le_of_lt hlt
            | Nat.succ k =>
                simp only [List.length_cons, Nat.succ_lt_succ_iff] at hj
                simpa using hall k hj
          · intro j hj
            match j with
            | 0 =>
                simp only [List.get]
                exact hlt
            | Nat.succ k =>
                have hk : k < i := Nat.succ_lt_succ_iff.mp hj
                simpa using hstrict k hk
      · rw [if_neg hd]
        push_neg at hd
        rcases ih v ax hoRest with ⟨heq, hall⟩ | hex
        · left
          refine ⟨heq, ?_⟩
          intro x hx
          rcases List.mem_cons.mp hx with hx | hx
          · subst hx
            exact hd
          · exact hall x hx
        · obtain ⟨i, hi, heq, hlt, hall, hstrict⟩ := hex
          right
          refine ⟨i + 1, by simpa using Nat.succ_lt_succ hi, ?_, ?_, ?_, ?_⟩
          · simpa using heq
          · exact hlt
          · intro j hj
            match j with
            | 0 =>
                simp only [List.get]
                exact le_of_lt (lt_of_lt_of_le hlt hd)
            | Nat.succ k =>
                simp only [List.length_cons, Nat.succ_lt_succ_iff] at hj
                simpa using hall k hj
          · intro j hj
            match j with
            | 0 =>
                simp only [List.get]
                exact lt_of_lt_of_le hlt hd
            | Nat.succ k =>
                have hk : k < i := Nat.succ_lt_succ_iff.mp hj
                simpa using hstrict k hk

/-- C2 (amended) -- When every tested edge-normal axis overlaps,
`checkNarrowPhaseCollision` reports a collision whose direction is the first
axis attaining the strictly smallest `|projection2.max - projection1.min|`
(a one-sided penetration measure, not the width of the interval
intersection), oriented by the sign of its dot product with the
center-to-center displacement; a strictly smaller value replaces the current
best, so the first axis examined wins ties. -/
theorem narrow_phase_min_displacement (a b : NBody)
    (hne : allAxes a b ≠ [])
    (hover : ∀ axis ∈ allAxes a b, overlapping a b axis) :
    ∃ (i : ℕ) (h : i < (allAxes a b).length),
      checkNarrowPhaseCollision a b =
        some (orientToward a b ((allAxes a b).get ⟨i, h⟩)) ∧
      (∀ j (hj : j < (allAxes a b).length),
        dLen a b ((allAxes a b).get ⟨i, h⟩) ≤
          dLen a b ((allAxes a b).get ⟨j, hj⟩)) ∧
      (∀ j (hj : j < i),
        dLen a b ((allAxes a b).get ⟨i, h⟩) <
          dLen a b ((allAxes a b).get ⟨j, Nat.lt_trans hj h⟩)) := by
  unfold checkNarrowPhaseCollision
  obtain ⟨axis, rest, hcons⟩ := List.exists_cons_of_ne_nil hne
  rw [hcons] at hover ⊢
  have hoAxis : overlapping a b axis := hover axis (by simp)
  have hoRest : ∀ x ∈ rest, overlapping a b x := by
    intro x hx
    exact hover x (by simp [hx])
  simp only [narrowGo, if_pos hoAxis]
  rcases narrowGo_some_spec a b rest (dLen a b axis) axis hoRest with
    ⟨heq, hall⟩ | hex
  · refine ⟨0, by simp, ?_, ?_, ?_⟩
    · simpa using heq
    · intro j hj
      match j with
      | 0 => simp
      | Nat.succ k =>
          simp only [List.length_cons, Nat.succ_lt_succ_iff] at hj
          simpa using hall (rest.get ⟨k, hj⟩) (List.get_mem rest k hj)
    · intro j hj
      omega
  · obtain ⟨i, hi, heq, hlt, hall, hstrict⟩ := hex
    refine ⟨i + 1, by simpa using Nat.succ_lt_succ hi, ?_, ?_, ?_⟩
    · simpa using heq
    · intro j hj
      match j with
      | 0 =>
          simp only [List.get]
          exact le_of_lt hlt
      | Nat.succ k =>
          simp only [List.length_cons, Nat.succ_lt_succ_iff] at hj
          simpa using hall k hj
    · intro j hj
      match j with
      | 0 =>
          simp only [List.get]
          exact hlt
      | Nat.succ k =>
          have hk : k < i := Nat.succ_lt_succ_iff.mp hj
          simpa using hstrict k hk

/-- Witness for `narrow_phase_min_displacement`: the square `sqA` against
itself (every axis overlaps). -/
theorem narrow_phase_min_displacement_witness :
    ∃ (i : ℕ) (h : i < (allAxes sqA sqA).length),
      checkNarrowPhaseCollision sqA sqA =
        some (orientToward sqA sqA ((allAxes sqA sqA).get ⟨i, h⟩)) ∧
      (∀ j (hj : j < (allAxes sqA sqA).length),
        dLen sqA sqA ((allAxes sqA sqA).get ⟨i, h⟩) ≤
          dLen sqA sqA ((allAxes sqA sqA).get ⟨j, hj⟩)) ∧
      (∀ j (hj : j < i),
        dLen sqA sqA ((allAxes sqA sqA).get ⟨i, h⟩) <
          dLen sqA sqA ((allAxes sqA sqA).get ⟨j, Nat.lt_trans hj h⟩)) :=
  narrow_phase_min_displacement sqA sqA (by with_unfolding_all decide)
    (by with_unfolding_all decide)

theorem limit_spec (v : Vec2) (maxMagnitude : ℚ) (hmax : 0 ≤ maxMagnitude)
    (hex : ratSqrt (Vec2.magSq v) * ratSqrt (Vec2.magSq v) = Vec2.magSq v) :
    (∃ c : ℚ, 0 ≤ c ∧ Vec2.limit v maxMagnitude = Vec2.smul v c) ∧
    Vec2.magSq (Vec2.limit v maxMagnitude) ≤ maxMagnitude * maxMagnitude := by
  unfold Vec2.limit
  by_cases h : Vec2.magSq v > maxMagnitude * maxMagnitude
  · rw [if_pos h]
    have hmagsq : 0 < Vec2.magSq v := lt_of_le_of_lt (by positivity) h
    have hmag0 : Vec2.mag v ≠ 0 := by
      intro h0
      rw [Vec2.mag] at h0
      rw [h0, mul_zero] at hex
      exact absurd hex.symm (ne_of_gt hmagsq)
    have hmagpos : 0 < Vec2.mag v :=
      lt_of_le_of_ne (ratSqrt_nonneg _) (Ne.symm hmag0)
    have hexm : Vec2.mag v * Vec2.mag v = Vec2.magSq v := hex
    refine ⟨⟨maxMagnitude / Vec2.mag v,
      div_nonneg hmax (le_of_lt hmagpos), ?_⟩, ?_⟩
    · unfold Vec2.setMagnitude Vec2.smul
      simp only [jsDiv_eq, Vec2.mk.injEq]
      constructor <;> ring
    · unfold Vec2.setMagnitude
      unfold Vec2.magSq
      simp only [jsDiv_eq]
      have hcalc :
          v.x / Vec2.mag v * maxMagnitude * (v.x / Vec2.mag v * maxMagnitude) +
            v.y / Vec2.mag v * maxMagnitude *
              (v.y / Vec2.mag v * maxMagnitude) =
          (v.x * v.x + v.y * v.y) / (Vec2.mag v * Vec2.mag v) *
            (maxMagnitude * maxMagnitude) := by
        ring
      rw [hcalc, hexm]
      have hms : v.x * v.x + v.y * v.y = Vec2.magSq v := rfl
      rw [hms, div_self (ne_of_gt hmagsq), one_mul]
  · rw [if_neg h]
    push_neg at h
    refine ⟨⟨1, by norm_num, ?_⟩, h⟩
    unfold Vec2.smul
    simp

/-- C7 -- In `PhysicsObject.update`, for every trig oracle and state (with
exact square roots at the two magnitudes the clamps inspect), the
acceleration is clamped to at most `maxAcceleration` and the velocity to at
most `maxSpeed` in magnitude, both as whole-vector rescalings by a
nonnegative factor (direction preserved, not per-axis), and both before the
position change: the new position is exactly the old position advanced by
the already-clamped velocity times dt. -/
theorem update_clamps (o : TrigOracle) (u : UBody) (dt : ℚ)
    (hA : 0 ≤ u.maxAcceleration) (hS : 0 ≤ u.maxSpeed)
    (hexA : ratSqrt (Vec2.magSq u.acceleration) *
      ratSqrt (Vec2.magSq u.acceleration) = Vec2.magSq u.acceleration)
    (hexV : ratSqrt (Vec2.magSq (updateVel1 o u dt)) *
      ratSqrt (Vec2.magSq (updateVel1 o u dt)) =
        Vec2.magSq (updateVel1 o u dt)) :
    (∃ c : ℚ, 0 ≤ c ∧
      (update o u dt).acceleration = Vec2.smul u.acceleration c) ∧
    Vec2.magSq (update o u dt).acceleration ≤
      u.maxAcceleration * u.maxAcceleration ∧
    (∃ c : ℚ, 0 ≤ c ∧
      (update o u dt).velocity = Vec2.smul (updateVel1 o u dt) c) ∧
    Vec2.magSq (update o u dt).velocity ≤ u.maxSpeed * u.maxSpeed ∧
    (update o u dt).pos =
      ⟨u.pos.x + (update o u dt).velocity.x * dt,
       u.pos.y + (update o u dt).velocity.y * dt⟩ := by
  obtain ⟨hAc, hAb⟩ := limit_spec u.acceleration u.maxAcceleration hA hexA
  obtain ⟨hVc, hVb⟩ := limit_spec (updateVel1 o u dt) u.maxSpeed hS hexV
  exact ⟨hAc, hAb, hVc, hVb, rfl⟩

/-- Witness for `update_clamps`: a constant trig oracle and a body whose
acceleration (0.03, 0.04) exceeds the default maxAcceleration 0.025, with
both inspected magnitudes exact. -/
theorem update_clamps_witness :
    (∃ c : ℚ, 0 ≤ c ∧
      (update ⟨fun _ => 1, fun _ => 0, fun _ _ => 0, fun a => a⟩
          ⟨⟨0, 0⟩, ⟨0, 0⟩, ⟨mkRat 3 100, mkRat 4 100⟩, mkRat 2 5,
            mkRat 1 40⟩ 1).acceleration =
        Vec2.smul ⟨mkRat 3 100, mkRat 4 100⟩ c) ∧
    Vec2.magSq (update ⟨fun _ => 1, fun _ => 0, fun _ _ => 0, fun a => a⟩
        ⟨⟨0, 0⟩, ⟨0, 0⟩, ⟨mkRat 3 100, mkRat 4 100⟩, mkRat 2 5,
          mkRat 1 40⟩ 1).acceleration ≤ mkRat 1 40 * mkRat 1 40 ∧
    (∃ c : ℚ, 0 ≤ c ∧
      (update ⟨fun _ => 1, fun _ => 0, fun _ _ => 0, fun a => a⟩
          ⟨⟨0, 0⟩, ⟨0, 0⟩, ⟨mkRat 3 100, mkRat 4 100⟩, mkRat 2 5,
            mkRat 1 40⟩ 1).velocity =
        Vec2.smul (updateVel1 ⟨fun _ => 1, fun _ => 0, fun _ _ => 0,
          fun a => a⟩ ⟨⟨0, 0⟩, ⟨0, 0⟩, ⟨mkRat 3 100, mkRat 4 100⟩,
            mkRat 2 5, mkRat 1 40⟩ 1) c) ∧
    Vec2.magSq (update ⟨fun _ => 1, fun _ => 0, fun _ _ => 0, fun a => a⟩
        ⟨⟨0, 0⟩, ⟨0, 0⟩, ⟨mkRat 3 100, mkRat 4 100⟩, mkRat 2 5,
          mkRat 1 40⟩ 1).velocity ≤ mkRat 2 5 * mkRat 2 5 ∧
    (update ⟨fun _ => 1, fun _ => 0, fun _ _ => 0, fun a => a⟩
        ⟨⟨0, 0⟩, ⟨0, 0⟩, ⟨mkRat 3 100, mkRat 4 100⟩, mkRat 2 5,
          mkRat 1 40⟩ 1).pos =
      ⟨0 + (update ⟨fun _ => 1, fun _ => 0, fun _ _ => 0, fun a => a⟩
          ⟨⟨0, 0⟩, ⟨0, 0⟩, ⟨mkRat 3 100, mkRat 4 100⟩, mkRat 2 5,
            mkRat 1 40⟩ 1).velocity.x * 1,
       0 + (update ⟨fun _ => 1, fun _ => 0, fun _ _ => 0, fun a => a⟩
          ⟨⟨0, 0⟩, ⟨0, 0⟩, ⟨mkRat 3 100, mkRat 4 100⟩, mkRat 2 5,
            mkRat 1 40⟩ 1).velocity.y * 1⟩ :=
  update_clamps ⟨fun _ => 1, fun _ => 0, fun _ _ => 0, fun a => a⟩
    ⟨⟨0, 0⟩, ⟨0, 0⟩, ⟨mkRat 3 100, mkRat 4 100⟩, mkRat 2 5, mkRat 1 40⟩ 1
    (by with_unfolding_all decide) (by with_unfolding_all decide)
    (by with_unfolding_all decide) (by with_unfolding_all decide)

/-- Witness bodies for the clipping degenerate case: two unit squares whose
best edges are parallel but far apart along the reference edge direction,
so the first clip pass keeps no points. -/
def cbA : CBody :=
  ⟨[⟨-1, -1⟩, ⟨1, -1⟩, ⟨1, 1⟩, ⟨-1, 1⟩], ⟨0, 0⟩, ⟨0, 0, 2, 2, 2, 2⟩,
   ⟨0, 0⟩, ⟨0, 0⟩, ⟨0, 0⟩, 1, 0, 0, false⟩

def cbB : CBody :=
  ⟨[⟨-1, -1⟩, ⟨1, -1⟩, ⟨1, 1⟩, ⟨-1, 1⟩], ⟨10, 2⟩, ⟨10, 2, 2, 2, 2, 2⟩,
   ⟨0, 0⟩, ⟨0, 0⟩, ⟨0, 0⟩, 1, 0, 0, false⟩

/-- C6 -- Degenerate clipping degrades to a defined no-contact result:
if either clip pass of `findContactManifold` leaves fewer than 2 points the
function returns the empty manifold (no crash: the function is total), and
a sample of `checkCollision`'s loop whose manifold comes back empty sets no
contact point for that sample and simply keeps sampling (recording only
`colliding` and the narrow-phase direction). -/
theorem manifold_clip_degrades_gracefully (a b : CBody) (dir : Vec2) :
    ((fcmClip1 a b dir).length < 2 →
      findContactManifold a b dir = ([], none)) ∧
    ((fcmClip2 a b dir).length < 2 →
      findContactManifold a b dir = ([], none)) ∧
    (∀ (n : Nat) (data : CollisionData) (inc : Vec2) (dirHit : Vec2)
        (aS : CBody),
      checkNarrowPhaseCollision (nbody (advanceSample aS inc)) (nbody b) =
        some dirHit →
      (findContactManifold (advanceSample aS inc) b dirHit).1 = [] →
      checkCollisionLoop b inc (n + 1) aS data =
        checkCollisionLoop b inc n (advanceSample aS inc)
          { data with colliding := true, direction := some dirHit }) := by
  refine ⟨?_, ?_, ?_⟩
  · intro h1
    unfold findContactManifold
    match hE : fcmEdges a b dir with
    | none => rfl
    | some (re, ie) =>
        dsimp only
        rw [if_pos h1]
  · intro h2
    unfold findContactManifold
    match hE : fcmEdges a b dir with
    | none => rfl
    | some (re, ie) =>
        dsimp only
        by_cases h1 : (fcmClip1 a b dir).length < 2
        · rw [if_pos h1]
        · rw [if_neg h1]
          match hC : fcmClip2 a b dir with
          | [] => rfl
          | [q] => rfl
          | q0 :: q1 :: rest =>
              rw [hC] at h2
              simp only [List.length_cons] at h2
              omega
  · intro n data inc dirHit aS hnarrow hempty
    simp only [checkCollisionLoop]
    rw [hnarrow]
    simp only [hempty, bestContactPoint, List.foldl_nil]

/-- Witness for `manifold_clip_degrades_gracefully`: for `cbA`, `cbB` and
separation direction (0, 1) the first clip pass keeps 0 points, and the
manifold is the defined empty result. -/
theorem manifold_clip_degrades_gracefully_witness :
    findContactManifold cbA cbB ⟨0, 1⟩ = ([], none) :=
  (manifold_clip_degrades_gracefully cbA cbB ⟨0, 1⟩).1
    (by with_unfolding_all decide)

theorem checkCollisionLoop_colliding_mono (b : CBody) (inc : Vec2) :
    ∀ (n : Nat) (a : CBody) (data : CollisionData),
      data.colliding = true →
      (checkCollisionLoop b inc n a data).2.2.colliding = true := by
  intro n
  induction n with
  | zero => intro a data h; exact h
  | succ k ih =>
      intro a data h
      simp only [checkCollisionLoop]
      match hN : checkNarrowPhaseCollision (nbody (advanceSample a inc))
          (nbody b) with
      | none =>
          simp only [hN]
          exact ih _ _ h
      | some dir =>
          simp only [hN]
          match hB : bestContactPoint
              (findContactManifold (advanceSample a inc) b dir).1 with
          | none =>
              simp only [hB]
              exact ih _ _ rfl
          | some p =>
              simp only [hB]

theorem checkCollisionLoop_no_hit (b : CBody) (inc : Vec2) :
    ∀ (n : Nat) (a : CBody) (data : CollisionData),
      (checkCollisionLoop b inc n a data).2.2.colliding = false →
      ((checkCollisionLoop b inc n a data).1.pos.x =
          a.pos.x + (n : ℚ) * inc.x ∧
        (checkCollisionLoop b inc n a data).1.pos.y =
          a.pos.y + (n : ℚ) * inc.y) ∧
      (n = 0 → (checkCollisionLoop b inc n a data).1.cache = a.cache) ∧
      (n ≠ 0 →
        (checkCollisionLoop b inc n a data).1.cache.x =
          a.pos.x + (n : ℚ) * inc.x ∧
        (checkCollisionLoop b inc n a data).1.cache.y =
          a.pos.y + (n : ℚ) * inc.y) := by
  intro n
  induction n with
  | zero =>
      intro a data _
      refine ⟨⟨by simp [checkCollisionLoop], by simp [checkCollisionLoop]⟩,
        fun _ => rfl, fun h0 => absurd rfl h0⟩
  | succ k ih =>
      intro a data hfalse
      simp only [checkCollisionLoop] at hfalse ⊢
      match hN : checkNarrowPhaseCollision (nbody (advanceSample a inc))
          (nbody b) with
      | none =>
          simp only [hN] at hfalse
          obtain ⟨⟨hpx, hpy⟩, hc0, hcn⟩ := ih (advanceSample a inc) data hfalse
          have hax : (advanceSample a inc).pos.x = a.pos.x + inc.x := rfl
          have hay : (advanceSample a inc).pos.y = a.pos.y + inc.y := rfl
          refine ⟨⟨?_, ?_⟩, ?_, ?_⟩
          · rw [hpx, hax]
            push_cast
            ring
          · rw [hpy, hay]
            push_cast
            ring
          · intro h
            exact absurd h (Nat.succ_ne_zero k)
          · intro _
            rcases Nat.eq_zero_or_pos k with hk | hk
            · subst hk
              have hcache := hc0 rfl
              constructor
              · rw [hcache]
                show a.pos.x + inc.x = a.pos.x + ((1 : ℕ) : ℚ) * inc.x
                push_cast
                ring
              · rw [hcache]
                show a.pos.y + inc.y = a.pos.y + ((1 : ℕ) : ℚ) * inc.y
                push_cast
                ring
            · obtain ⟨hcx, hcy⟩ := hcn (Nat.pos_iff_ne_zero.mp hk)
              constructor
              · rw [hcx, hax]
                push_cast
                ring
              · rw [hcy, hay]
                push_cast
                ring
      | some dir =>
          simp only [hN] at hfalse
          match hB : bestContactPoint
              (findContactManifold (advanceSample a inc) b dir).1 with
          | none =>
              simp only [hB] at hfalse
              have := checkCollisionLoop_colliding_mono b inc k
                (advanceSample a inc)
                { data with colliding := true, direction := some dir } rfl
              rw [this] at hfalse
              exact absurd hfalse (by simp)
          | some p =>
              simp only [hB] at hfalse
              simp at hfalse

theorem mul_div_shuffle (S m x : ℚ) (hS : S ≠ 0) (hm : m ≠ 0) :
    S * (x / m * (m / S)) = x := by
  field_simp

/-- C10 -- When the multi-sampled narrow phase finds no collision,
`checkCollision` leaves the body's position (and cache x/y) with zero net
change: the body is stepped back by velocity + surface-impulse sum and
re-advanced in `sampleCount` equal increments whose exact-rational total is
that same vector. -/
theorem check_collision_no_hit_restores_position (a b : CBody)
    (hsx : a.cache.x = a.pos.x) (hsy : a.cache.y = a.pos.y)
    (hside : 0 < min (a.cache.width * (mkRat 1 2))
      (a.cache.height * (mkRat 1 2)))
    (hmag : Vec2.magSq (Vec2.add a.velocity a.surfImpulse) ≠ 0)
    (hex : ratSqrt (Vec2.magSq (Vec2.add a.velocity a.surfImpulse)) *
        ratSqrt (Vec2.magSq (Vec2.add a.velocity a.surfImpulse)) =
      Vec2.magSq (Vec2.add a.velocity a.surfImpulse))
    (hnohit : (checkCollision a b).2.2.colliding = false) :
    (checkCollision a b).1.pos.x = a.pos.x ∧
    (checkCollision a b).1.pos.y = a.pos.y ∧
    (checkCollision a b).1.cache.x = a.cache.x ∧
    (checkCollision a b).1.cache.y = a.cache.y := by
  by_cases hbroad : checkBroadPhaseCollision a.cache b.cache = true
  · have hm0 : Vec2.mag (Vec2.add a.velocity a.surfImpulse) ≠ 0 := by
      intro h0
      rw [Vec2.mag] at h0
      rw [h0, mul_zero] at hex
      exact hmag hex.symm
    have hmpos : 0 < Vec2.mag (Vec2.add a.velocity a.surfImpulse) :=
      lt_of_le_of_ne (ratSqrt_nonneg _) (Ne.symm hm0)
    have hrw : checkCollision a b =
        checkCollisionLoop b
          (Vec2.smul (Vec2.normalize (Vec2.add a.velocity a.surfImpulse))
            (jsDiv (Vec2.mag (Vec2.add a.velocity a.surfImpulse))
              (((1 + jsMinInt
                  ⌈jsDiv (Vec2.mag (Vec2.add a.velocity a.surfImpulse))
                    (min (a.cache.width * (mkRat 1 2))
                      (a.cache.height * (mkRat 1 2)))⌉
                  MAX_COLLISION_MULTI_SAMPLE_COUNT : ℤ) : ℚ))))
          (1 + jsMinInt
              ⌈jsDiv (Vec2.mag (Vec2.add a.velocity a.surfImpulse))
                (min (a.cache.width * (mkRat 1 2))
                  (a.cache.height * (mkRat 1 2)))⌉
              MAX_COLLISION_MULTI_SAMPLE_COUNT).toNat
          (CBody.mk a.vertices
            (Vec2.sub a.pos (Vec2.add a.velocity a.surfImpulse))
            (CalcCache.mk (a.pos.x - (Vec2.add a.velocity a.surfImpulse).x)
              (a.pos.y - (Vec2.add a.velocity a.surfImpulse).y)
              a.cache.width a.cache.height a.cache.aabbWidth
              a.cache.aabbHeight)
            a.velocity a.acceleration a.surfImpulse a.mass a.friction
            a.restitution a.fixed)
          ⟨false, none, none, none⟩ := by
      simp only [checkCollision]
      rw [if_pos hbroad, if_neg hm0]
    rw [hrw] at hnohit ⊢
    have hceil : (1 : ℤ) ≤
        ⌈jsDiv (Vec2.mag (Vec2.add a.velocity a.surfImpulse))
          (min (a.cache.width * (mkRat 1 2))
            (a.cache.height * (mkRat 1 2)))⌉ := by
      rw [jsDiv_eq]
      have := Int.ceil_pos.mpr (div_pos hmpos hside)
      omega
    have hsc : (1 : ℤ) ≤ 1 + jsMinInt
        ⌈jsDiv (Vec2.mag (Vec2.add a.velocity a.surfImpulse))
          (min (a.cache.width * (mkRat 1 2))
            (a.cache.height * (mkRat 1 2)))⌉
        MAX_COLLISION_MULTI_SAMPLE_COUNT := by
      unfold jsMinInt MAX_COLLISION_MULTI_SAMPLE_COUNT
      split <;> omega
    have hn0 : (1 + jsMinInt
        ⌈jsDiv (Vec2.mag (Vec2.add a.velocity a.surfImpulse))
          (min (a.cache.width * (mkRat 1 2))
            (a.cache.height * (mkRat 1 2)))⌉
        MAX_COLLISION_MULTI_SAMPLE_COUNT).toNat ≠ 0 := by
      omega
    have hcast : (((1 + jsMinInt
        ⌈jsDiv (Vec2.mag (Vec2.add a.velocity a.surfImpulse))
          (min (a.cache.width * (mkRat 1 2))
            (a.cache.height * (mkRat 1 2)))⌉
        MAX_COLLISION_MULTI_SAMPLE_COUNT).toNat : ℚ) =
        ((1 + jsMinInt
        ⌈jsDiv (Vec2.mag (Vec2.add a.velocity a.surfImpulse))
          (min (a.cache.width * (mkRat 1 2))
            (a.cache.height * (mkRat 1 2)))⌉
        MAX_COLLISION_MULTI_SAMPLE_COUNT : ℤ) : ℚ)) := by
      have h1 := Int.toNat_of_nonneg (le_trans (by norm_num) hsc)
      exact_mod_cast congrArg (fun z : ℤ => (z : ℚ)) h1
    have hscq : ((1 + jsMinInt
        ⌈jsDiv (Vec2.mag (Vec2.add a.velocity a.surfImpulse))
          (min (a.cache.width * (mkRat 1 2))
            (a.cache.height * (mkRat 1 2)))⌉
        MAX_COLLISION_MULTI_SAMPLE_COUNT : ℤ) : ℚ) ≠ 0 := by
      have : (1 : ℚ) ≤ ((1 + jsMinInt
        ⌈jsDiv (Vec2.mag (Vec2.add a.velocity a.surfImpulse))
          (min (a.cache.width * (mkRat 1 2))
            (a.cache.height * (mkRat 1 2)))⌉
        MAX_COLLISION_MULTI_SAMPLE_COUNT : ℤ) : ℚ) := by
        exact_mod_cast hsc
      linarith
    obtain ⟨⟨hpx, hpy⟩, _, hcn⟩ := checkCollisionLoop_no_hit b _ _ _ _ hnohit
    obtain ⟨hcx, hcy⟩ := hcn hn0
    have hincx : (Vec2.smul
        (Vec2.normalize (Vec2.add a.velocity a.surfImpulse))
        (jsDiv (Vec2.mag (Vec2.add a.velocity a.surfImpulse))
          (((1 + jsMinInt
              ⌈jsDiv (Vec2.mag (Vec2.add a.velocity a.surfImpulse))
                (min (a.cache.width * (mkRat 1 2))
                  (a.cache.height * (mkRat 1 2)))⌉
              MAX_COLLISION_MULTI_SAMPLE_COUNT : ℤ) : ℚ)))).x =
        jsDiv (Vec2.add a.velocity a.surfImpulse).x
            (Vec2.mag (Vec2.add a.velocity a.surfImpulse)) *
          jsDiv (Vec2.mag (Vec2.add a.velocity a.surfImpulse))
            (((1 + jsMinInt
              ⌈jsDiv (Vec2.mag (Vec2.add a.velocity a.surfImpulse))
                (min (a.cache.width * (mkRat 1 2))
                  (a.cache.height * (mkRat 1 2)))⌉
              MAX_COLLISION_MULTI_SAMPLE_COUNT : ℤ) : ℚ)) := rfl
    have hincy : (Vec2.smul
        (Vec2.normalize (Vec2.add a.velocity a.surfImpulse))
        (jsDiv (Vec2.mag (Vec2.add a.velocity a.surfImpulse))
          (((1 + jsMinInt
              ⌈jsDiv (Vec2.mag (Vec2.add a.velocity a.surfImpulse))
                (min (a.cache.width * (mkRat 1 2))
                  (a.cache.height * (mkRat 1 2)))⌉
              MAX_COLLISION_MULTI_SAMPLE_COUNT : ℤ) : ℚ)))).y =
        jsDiv (Vec2.add a.velocity a.surfImpulse).y
            (Vec2.mag (Vec2.add a.velocity a.surfImpulse)) *
          jsDiv (Vec2.mag (Vec2.add a.velocity a.surfImpulse))
            (((1 + jsMinInt
              ⌈jsDiv (Vec2.mag (Vec2.add a.velocity a.surfImpulse))
                (min (a.cache.width * (mkRat 1 2))
                  (a.cache.height * (mkRat 1 2)))⌉
              MAX_COLLISION_MULTI_SAMPLE_COUNT : ℤ) : ℚ)) := rfl
    simp only [jsDiv_eq] at hscq
    refine ⟨?_, ?_, ?_, ?_⟩
    · rw [hpx, hincx, hcast]
      simp only [jsDiv_eq]
      rw [mul_div_shuffle _ _ _ hscq hm0]
      show a.pos.x - (Vec2.add a.velocity a.surfImpulse).x +
        (Vec2.add a.velocity a.surfImpulse).x = a.pos.x
      ring
    · rw [hpy, hincy, hcast]
      simp only [jsDiv_eq]
      rw [mul_div_shuffle _ _ _ hscq hm0]
      show a.pos.y - (Vec2.add a.velocity a.surfImpulse).y +
        (Vec2.add a.velocity a.surfImpulse).y = a.pos.y
      ring
    · rw [hcx, hincx, hcast, hsx]
      simp only [jsDiv_eq]
      rw [mul_div_shuffle _ _ _ hscq hm0]
      show a.pos.x - (Vec2.add a.velocity a.surfImpulse).x +
        (Vec2.add a.velocity a.surfImpulse).x = a.pos.x
      ring
    · rw [hcy, hincy, hcast, hsy]
      simp only [jsDiv_eq]
      rw [mul_div_shuffle _ _ _ hscq hm0]
      show a.pos.y - (Vec2.add a.velocity a.surfImpulse).y +
        (Vec2.add a.velocity a.surfImpulse).y = a.pos.y
      ring
  · unfold checkCollision
    rw [if_neg hbroad]
    exact ⟨rfl, rfl, rfl, rfl⟩

/-- Witness bodies for the no-collision multi-sampling round trip: a unit
square moving with velocity (3, 4) (exact magnitude 5) whose inflated cached
AABB passes the broad phase against a far-away square the narrow phase
always separates from. -/
def cwA : CBody :=
  ⟨[⟨-1, -1⟩, ⟨1, -1⟩, ⟨1, 1⟩, ⟨-1, 1⟩], ⟨0, 0⟩, ⟨0, 0, 2, 2, 200, 200⟩,
   ⟨3, 4⟩, ⟨0, 0⟩, ⟨0, 0⟩, 1, 0, 0, false⟩

def cwB : CBody :=
  ⟨[⟨-1, -1⟩, ⟨1, -1⟩, ⟨1, 1⟩, ⟨-1, 1⟩], ⟨50, 0⟩, ⟨50, 0, 2, 2, 200, 200⟩,
   ⟨0, 0⟩, ⟨0, 0⟩, ⟨0, 0⟩, 1, 0, 0, false⟩

/-- Witness for `check_collision_no_hit_restores_position` at `cwA`, `cwB`:
six samples are taken and the position and cache return exactly to their
starting values. -/
theorem check_collision_no_hit_restores_position_witness :
    (checkCollision cwA cwB).1.pos.x = cwA.pos.x ∧
    (checkCollision cwA cwB).1.pos.y = cwA.pos.y ∧
    (checkCollision cwA cwB).1.cache.x = cwA.cache.x ∧
    (checkCollision cwA cwB).1.cache.y = cwA.cache.y :=
  check_collision_no_hit_restores_position cwA cwB
    (by with_unfolding_all decide) (by with_unfolding_all decide)
    (by with_unfolding_all decide) (by with_unfolding_all decide)
    (by with_unfolding_all decide) (by with_unfolding_all decide)

end WflGame
